import Mathlib

/-!
Shallow embedding of the two Rust exercise files
`src/exercises/23_conversions/try_from_into.rs` and
`src/exercises/23_conversions/using_as.rs`, together with proofs of the
specified properties.

Modelling conventions:
* `u8` values are modelled as `Nat` (with the bound `≤ 255` proved where the
  spec claims it); `i16` values as `Int` (with explicit range hypotheses where
  a claim quantifies over the `i16` range).
* `Result<T, E>` is modelled as `Except E T`; Rust's
  `Result<u8, TryFromIntError>` from `u8::try_from` is modelled as
  `Option Nat` (the error payload is never inspected by the program).
* The generic bound `u8: TryFrom<T>` on the array and slice `impl`s is
  modelled by an explicit narrowing function `tf : T → Option Nat`.
* Iterators over a slice/array are modelled as the underlying list; each
  `values.next()` is the `head?` of the list after dropping the elements
  already consumed.
-/

deriving instance DecidableEq for Except

/-- The `Color` struct: three `u8` channel fields (`u8` modelled as `Nat`). -/
structure Color where
  red : Nat
  green : Nat
  blue : Nat
deriving DecidableEq, Repr

/-- The `IntoColorError` enum: `BadLen` (incorrect length of slice) and
`IntConversion` (integer conversion error). -/
inductive IntoColorError where
  | BadLen
  | IntConversion
deriving DecidableEq, Repr

/-- Model of `u8::try_from` on an `i16` (more generally, on any signed integer value):
succeeds exactly when the value fits in `0..=255`, returning the narrowed
value. -/
def u8_try_from (v : Int) : Option Nat :=
  if 0 ≤ v ∧ v ≤ 255 then some v.toNat else none

/-- The `impl TryFrom<(i16, i16, i16)> for Color`: match on the triple of
`u8::try_from` results; all-`Ok` yields `Color { red, green, blue }`,
anything else yields `IntConversion`. -/
def Color.try_from_tuple (tuple : Int × Int × Int) : Except IntoColorError Color :=
  match u8_try_from tuple.1, u8_try_from tuple.2.1, u8_try_from tuple.2.2 with
  | some red, some green, some blue => .ok ⟨red, green, blue⟩
  | _, _, _ => .error .IntConversion

/-- The `impl<T> TryFrom<[T; 3]> for Color where u8: TryFrom<T>`: the array's
iterator is the list of its three elements; three `next().map(u8::try_from)`
calls must all produce `Some(Ok(_))`, else `IntConversion`. -/
def Color.try_from_array {T : Type} (tf : T → Option Nat) (arr : T × T × T) :
    Except IntoColorError Color :=
  let values := [arr.1, arr.2.1, arr.2.2]
  match values.head?.map tf, (values.drop 1).head?.map tf,
      (values.drop 2).head?.map tf with
  | some (some red), some (some green), some (some blue) => .ok ⟨red, green, blue⟩
  | _, _, _ => .error .IntConversion

/-- The `impl<T: Clone + Copy> TryFrom<&[T]> for Color where u8: TryFrom<T>`:
first the length check (`!= 3` returns `BadLen`), then three
`next().map(u8::try_from)` calls that must produce `Some(Ok(_))` and a fourth
`next()` that must produce `None`, else `IntConversion`. -/
def Color.try_from_slice {T : Type} (tf : T → Option Nat) (slice : List T) :
    Except IntoColorError Color :=
  if slice.length ≠ 3 then .error .BadLen
  else
    match slice.head?.map tf, (slice.drop 1).head?.map tf,
        (slice.drop 2).head?.map tf, (slice.drop 3).head? with
    | some (some red), some (some green), some (some blue), none =>
        .ok ⟨red, green, blue⟩
    | _, _, _, _ => .error .IntConversion

/-!
Model of IEEE-754 binary64 (`f64`) arithmetic, for `using_as.rs`.

A finite double is represented as a dyadic number `m * 2 ^ e` with `m : Int`,
`e : Int` (not necessarily canonical: two representations denote the same
double exactly when their values are equal, which `dyadicBeq` decides).
Rounding is round-to-nearest, ties-to-even, with 53 significand bits, the
subnormal exponent floor `e ≥ -1074`, and overflow to infinity past the
largest finite double `(2^53 - 1) * 2^971`.  The model does not track the
sign of zero: `finite 0 _` is `+0.0` (no operation appearing in the program
under the inputs of the spec produces `-0.0`, and IEEE `==` and the division
cases used here do not depend on it).
-/

/-- An `f64` value: finite dyadic `m * 2 ^ e`, infinity with a sign, or NaN. -/
inductive F64 where
  | finite (m : Int) (e : Int)
  | inf (neg : Bool)
  | nan
deriving DecidableEq, Repr

/-- The `f64` value `0.0`. -/
def F64.zero : F64 := .finite 0 0

/-- IEEE negation of an `f64`. -/
def F64.neg : F64 → F64
  | .finite m e => .finite (-m) e
  | .inf b => .inf (!b)
  | .nan => .nan

/-- Floor of the base-2 logarithm of a positive natural number, computed with
explicit structural fuel (64 levels cover every number below `2 ^ 64`; the
fuel of 4096 covers everything arising here with a wide margin). -/
def log2Fuel : Nat → Nat → Nat
  | 0, _ => 0
  | fuel + 1, n => if n ≤ 1 then 0 else log2Fuel fuel (n / 2) + 1

/-- Decides `2 ^ k ≤ a / b` for naturals `a, b ≥ 1` and an integer `k`. -/
def pow2LeRat (k : Int) (a b : Nat) : Bool :=
  if 0 ≤ k then decide (2 ^ k.toNat * b ≤ a) else decide (b ≤ a * 2 ^ (-k).toNat)

/-- Computes `⌊log₂ (a / b)⌋` for naturals `a, b ≥ 1`.  The floor lies in
`{⌊log₂ a⌋ - ⌊log₂ b⌋ - 1, ⌊log₂ a⌋ - ⌊log₂ b⌋}`, so one comparison picks it. -/
def ratLog2 (a b : Nat) : Int :=
  let k : Int := (log2Fuel 4096 a : Int) - (log2Fuel 4096 b : Int)
  if pow2LeRat k a b then k else k - 1

/-- Round the positive rational `(a / b) * 2 ^ e` (`a, b ≥ 1`) to the nearest
binary64 value (ties to even), overflowing to `+∞`. -/
def roundPosRat (a b : Nat) (e : Int) : F64 :=
  let k := ratLog2 a b + e
  let et := max (k - 52) (-1074)
  let s := e - et
  let N := if 0 ≤ s then a * 2 ^ s.toNat else a
  let D := if 0 ≤ s then b else b * 2 ^ (-s).toNat
  let q := N / D
  let r := N % D
  let mag := if D < 2 * r then q + 1
             else if 2 * r < D then q
             else if q % 2 = 0 then q else q + 1
  -- `mag ≤ 2 ^ 53`, so `mag * 2 ^ et` can only exceed the largest finite
  -- double `(2 ^ 53 - 1) * 2 ^ 971` when `et ≥ 971`.
  if 971 ≤ et then
    if 2 ^ 53 - 1 < mag * 2 ^ (et - 971).toNat then F64.inf false
    else F64.finite (mag : Int) et
  else F64.finite (mag : Int) et

/-- Round the exact integer-scaled value `M * 2 ^ e` to the nearest binary64. -/
def roundIntExp (M : Int) (e : Int) : F64 :=
  if M = 0 then F64.zero
  else if 0 < M then roundPosRat M.toNat 1 e
  else F64.neg (roundPosRat (-M).toNat 1 e)

/-- IEEE binary64 addition: the exact dyadic sum, correctly rounded; NaN
propagates and opposite infinities give NaN. -/
def f64Add : F64 → F64 → F64
  | .nan, _ => .nan
  | _, .nan => .nan
  | .inf b1, .inf b2 => if b1 = b2 then .inf b1 else .nan
  | .inf b, .finite _ _ => .inf b
  | .finite _ _, .inf b => .inf b
  | .finite m1 e1, .finite m2 e2 =>
      let s := min e1 e2
      roundIntExp (m1 * 2 ^ (e1 - s).toNat + m2 * 2 ^ (e2 - s).toNat) s

/-- IEEE binary64 division: the exact quotient, correctly rounded; `0/0`,
`∞/∞` and NaN operands give NaN, division by zero gives a signed infinity. -/
def f64Div : F64 → F64 → F64
  | .nan, _ => .nan
  | _, .nan => .nan
  | .inf _, .inf _ => .nan
  | .inf b, .finite m _ => .inf (b != decide (m < 0))
  | .finite _ _, .inf _ => F64.zero
  | .finite m1 e1, .finite m2 e2 =>
      if m2 = 0 then
        if m1 = 0 then .nan else .inf (decide (m1 < 0))
      else if m1 = 0 then F64.zero
      else
        let r := roundPosRat m1.natAbs m2.natAbs (e1 - e2)
        if decide (m1 < 0) != decide (m2 < 0) then r.neg else r

/-- The `usize → f64` cast (`values.len() as f64`): round-to-nearest
conversion of a natural number (exact below `2 ^ 53`). -/
def f64FromNat (n : Nat) : F64 := roundIntExp (n : Int) 0

/-- Value equality of two dyadic representations `m1 * 2^e1 = m2 * 2^e2`. -/
def dyadicBeq (m1 e1 m2 e2 : Int) : Bool :=
  let s := min e1 e2
  decide (m1 * 2 ^ (e1 - s).toNat = m2 * 2 ^ (e2 - s).toNat)

/-- IEEE `==` on `f64` (Rust's `PartialEq for f64`): NaN compares unequal to
everything, finite values compare by numeric value. -/
def f64Beq : F64 → F64 → Bool
  | .nan, _ => false
  | _, .nan => false
  | .inf b1, .inf b2 => b1 = b2
  | .inf _, .finite _ _ => false
  | .finite _ _, .inf _ => false
  | .finite m1 e1, .finite m2 e2 => dyadicBeq m1 e1 m2 e2

/-- The binary64 value of the decimal literal `n / 10 ^ d` (Rust parses `f64`
literals with correct rounding). -/
def f64OfDec (n d : Nat) : F64 :=
  if n = 0 then F64.zero else roundPosRat n (10 ^ d) 0

/-- The function `average` from `using_as.rs`: `values.iter().sum::<f64>()` is a left fold
of `+` starting from `0.0`; the length is cast to `f64` (the local variable is
called `try_from` in the source) and the sum is divided by it. -/
def average (values : List F64) : F64 :=
  let total := values.foldl f64Add F64.zero
  let try_from := f64FromNat values.length
  f64Div total try_from

example : Color.try_from_tuple (183, 65, 14) = .ok ⟨183, 65, 14⟩ := by decide
example : Color.try_from_tuple (256, 1000, 10000) = .error .IntConversion := by decide
example : Color.try_from_tuple (-1, 255, 255) = .error .IntConversion := by decide
example : Color.try_from_array u8_try_from (183, 65, 14) = .ok ⟨183, 65, 14⟩ := by decide
example : Color.try_from_array u8_try_from (-1, 255, 255) = .error .IntConversion := by decide
example : Color.try_from_slice u8_try_from [183, 65, 14] = .ok ⟨183, 65, 14⟩ := by decide
example : Color.try_from_slice u8_try_from [0, 0, 0, 0] = .error .BadLen := by decide
example : Color.try_from_slice u8_try_from [0, 0] = .error .BadLen := by decide
example : Color.try_from_slice u8_try_from [-1, 255, 255] = .error .IntConversion := by decide


/-!
Helper lemmas about `u8_try_from`.
-/

/-- Lemma: `u8_try_from` succeeds on an in-range value, returning the narrowing. -/
theorem u8_try_from_some {v : Int} (h0 : 0 ≤ v) (h1 : v ≤ 255) :
    u8_try_from v = some v.toNat := by
  simp [u8_try_from, h0, h1]

/-- Lemma: `u8_try_from` fails on an out-of-range value. -/
theorem u8_try_from_none {v : Int} (h : v < 0 ∨ 255 < v) :
    u8_try_from v = none := by
  rcases h with h | h <;> simp [u8_try_from] <;> omega

/-- A successful `u8::try_from` certifies the input range. -/
theorem u8_try_from_range {v : Int} {n : Nat} (h : u8_try_from v = some n) :
    0 ≤ v ∧ v ≤ 255 := by
  by_cases hv : 0 ≤ v ∧ v ≤ 255
  · exact hv
  · simp [u8_try_from, hv] at h

/-- A successful `u8::try_from` produces a value that fits in a `u8`. -/
theorem u8_try_from_le {v : Int} {n : Nat} (h : u8_try_from v = some n) :
    n ≤ 255 := by
  obtain ⟨h0, h1⟩ := u8_try_from_range h
  by_cases hv : 0 ≤ v ∧ v ≤ 255
  · rw [u8_try_from_some hv.1 hv.2] at h
    cases h
    omega
  · exact absurd ⟨h0, h1⟩ hv

/-!
Theorems for the specified claims.
-/

/-- Claim C1: for every triple `(r, g, b)` of `i16` values with each component
in `0..=255`, the tuple conversion succeeds and returns
`Color { red: r, green: g, blue: b }`, the three narrowed values assigned in
order. -/
theorem try_from_tuple_in_range (r g b : Int)
    (hr : 0 ≤ r ∧ r ≤ 255) (hg : 0 ≤ g ∧ g ≤ 255) (hb : 0 ≤ b ∧ b ≤ 255) :
    Color.try_from_tuple (r, g, b) = .ok ⟨r.toNat, g.toNat, b.toNat⟩ ∧
    (r.toNat : Int) = r ∧ (g.toNat : Int) = g ∧ (b.toNat : Int) = b := by
  refine ⟨?_, by omega, by omega, by omega⟩
  simp [Color.try_from_tuple, u8_try_from_some hr.1 hr.2,
    u8_try_from_some hg.1 hg.2, u8_try_from_some hb.1 hb.2]

/-- Witness for C1 at `(183, 65, 14)`. -/
theorem try_from_tuple_in_range_witness :
    ((0 ≤ (183 : Int) ∧ (183 : Int) ≤ 255) ∧ (0 ≤ (65 : Int) ∧ (65 : Int) ≤ 255) ∧
      (0 ≤ (14 : Int) ∧ (14 : Int) ≤ 255)) ∧
    (Color.try_from_tuple (183, 65, 14) = .ok ⟨183, 65, 14⟩ ∧
      ((183 : Int).toNat : Int) = 183 ∧ ((65 : Int).toNat : Int) = 65 ∧
      ((14 : Int).toNat : Int) = 14) :=
  ⟨⟨by decide, by decide, by decide⟩,
   try_from_tuple_in_range 183 65 14 (by decide) (by decide) (by decide)⟩

/-- Claim C2: for every triple of `i16` values with at least one component
outside `0..=255`, the tuple conversion returns `IntConversion`, whichever of
the three channels fails. -/
theorem try_from_tuple_out_of_range (r g b : Int)
    (_hi16 : (-32768 ≤ r ∧ r ≤ 32767) ∧ (-32768 ≤ g ∧ g ≤ 32767) ∧
      (-32768 ≤ b ∧ b ≤ 32767))
    (h : (r < 0 ∨ 255 < r) ∨ (g < 0 ∨ 255 < g) ∨ (b < 0 ∨ 255 < b)) :
    Color.try_from_tuple (r, g, b) = .error .IntConversion := by
  rcases h with h | h | h
  · cases hg : u8_try_from g <;> cases hb : u8_try_from b <;>
      simp [Color.try_from_tuple, u8_try_from_none h, hg, hb]
  · cases hr : u8_try_from r <;> cases hb : u8_try_from b <;>
      simp [Color.try_from_tuple, u8_try_from_none h, hr, hb]
  · cases hr : u8_try_from r <;> cases hg : u8_try_from g <;>
      simp [Color.try_from_tuple, u8_try_from_none h, hr, hg]

/-- Witness for C2 at `(-1, 255, 255)`. -/
theorem try_from_tuple_out_of_range_witness :
    (((-32768 ≤ (-1 : Int) ∧ (-1 : Int) ≤ 32767) ∧
       (-32768 ≤ (255 : Int) ∧ (255 : Int) ≤ 32767) ∧
       (-32768 ≤ (255 : Int) ∧ (255 : Int) ≤ 32767)) ∧
      (((-1 : Int) < 0 ∨ 255 < (-1 : Int)) ∨ ((255 : Int) < 0 ∨ 255 < (255 : Int)) ∨
        ((255 : Int) < 0 ∨ 255 < (255 : Int)))) ∧
    Color.try_from_tuple (-1, 255, 255) = .error .IntConversion :=
  ⟨⟨by decide, by decide⟩,
   try_from_tuple_out_of_range (-1) 255 255 (by decide) (by decide)⟩

/-- Claim C3: for every input slice whose length is not 3, the slice
conversion returns `BadLen`, whatever the narrowing function and the element
values are — the length check strictly precedes value validation. -/
theorem try_from_slice_bad_len {T : Type} (tf : T → Option Nat)
    (slice : List T) (h : slice.length ≠ 3) :
    Color.try_from_slice tf slice = .error .BadLen := by
  unfold Color.try_from_slice
  rw [if_pos h]

/-- Witness for C3 at the length-4 all-in-range slice `[0, 0, 0, 0]`: it
yields `BadLen`, not success and not `IntConversion`. -/
theorem try_from_slice_bad_len_witness :
    ([(0 : Int), 0, 0, 0].length ≠ 3) ∧
    Color.try_from_slice u8_try_from [0, 0, 0, 0] = .error .BadLen :=
  ⟨by decide, try_from_slice_bad_len u8_try_from [0, 0, 0, 0] (by decide)⟩

/-- Claim C4: for every input slice of length exactly 3 (every such slice is
`[a, b, c]`), the slice conversion succeeds with the three narrowed values in
positional order (first→red, second→green, third→blue) when all three
narrowings succeed, and returns `IntConversion` when any narrowing fails. -/
theorem try_from_slice_len3 {T : Type} (tf : T → Option Nat) (a b c : T) :
    (∀ red green blue, tf a = some red → tf b = some green → tf c = some blue →
      Color.try_from_slice tf [a, b, c] = .ok ⟨red, green, blue⟩) ∧
    ((tf a = none ∨ tf b = none ∨ tf c = none) →
      Color.try_from_slice tf [a, b, c] = .error .IntConversion) := by
  constructor
  · intro red green blue ha hb hc
    simp [Color.try_from_slice, ha, hb, hc]
  · intro h
    cases ha : tf a <;> cases hb : tf b <;> cases hc : tf c <;>
      simp [Color.try_from_slice, ha, hb, hc] <;> simp [ha, hb, hc] at h

/-- Witness for C4: a successful and a failing 3-element slice. -/
theorem try_from_slice_len3_witness :
    Color.try_from_slice u8_try_from [183, 65, 14] = .ok ⟨183, 65, 14⟩ ∧
    Color.try_from_slice u8_try_from [-1, 255, 255] = .error .IntConversion :=
  ⟨(try_from_slice_len3 u8_try_from 183 65 14).1 183 65 14 (by decide)
      (by decide) (by decide),
   (try_from_slice_len3 u8_try_from (-1) 255 255).2 (Or.inl (by decide))⟩

/-- Claim C5: for every fixed 3-element array, the array conversion succeeds
with fields assigned in order (first→red, second→green, third→blue) when all
three elements narrow successfully, and returns `IntConversion` when any
element fails to narrow. -/
theorem try_from_array_cases {T : Type} (tf : T → Option Nat) (a b c : T) :
    (∀ red green blue, tf a = some red → tf b = some green → tf c = some blue →
      Color.try_from_array tf (a, b, c) = .ok ⟨red, green, blue⟩) ∧
    ((tf a = none ∨ tf b = none ∨ tf c = none) →
      Color.try_from_array tf (a, b, c) = .error .IntConversion) := by
  constructor
  · intro red green blue ha hb hc
    simp [Color.try_from_array, ha, hb, hc]
  · intro h
    cases ha : tf a <;> cases hb : tf b <;> cases hc : tf c <;>
      simp [Color.try_from_array, ha, hb, hc] <;> simp [ha, hb, hc] at h

/-- Witness for C5: a successful and a failing 3-element array. -/
theorem try_from_array_cases_witness :
    Color.try_from_array u8_try_from (183, 65, 14) = .ok ⟨183, 65, 14⟩ ∧
    Color.try_from_array u8_try_from (-1, 255, 255) = .error .IntConversion :=
  ⟨(try_from_array_cases u8_try_from 183 65 14).1 183 65 14 (by decide)
      (by decide) (by decide),
   (try_from_array_cases u8_try_from (-1) 255 255).2 (Or.inl (by decide))⟩

/-- Claim C6: the tuple conversion and the fixed-array conversion never
return `BadLen`, for any input and any narrowing function: their only
possible error value is `IntConversion`. -/
theorem tuple_and_array_never_bad_len {T : Type} (tf : T → Option Nat)
    (t : Int × Int × Int) (arr : T × T × T) :
    Color.try_from_tuple t ≠ .error .BadLen ∧
    Color.try_from_array tf arr ≠ .error .BadLen := by
  obtain ⟨r, g, b⟩ := t
  obtain ⟨x, y, z⟩ := arr
  constructor
  · cases hr : u8_try_from r <;> cases hg : u8_try_from g <;>
      cases hb : u8_try_from b <;>
      simp [Color.try_from_tuple, hr, hg, hb]
  · cases hx : tf x <;> cases hy : tf y <;> cases hz : tf z <;>
      simp [Color.try_from_array, hx, hy, hz]

/-- Claim C7: every `Color` successfully returned by any of the three
conversion operations has all three fields within `[0, 255]` (fields are
naturals, so `0 ≤` holds by type; the narrowing function is assumed to model
`u8::try_from`, i.e. to produce only values `≤ 255`, which `u8_try_from`
does).  The embedding is purely functional, so a constructed `Color` is never
mutated. -/
theorem ok_color_in_bounds {T : Type} (tf : T → Option Nat)
    (htf : ∀ t n, tf t = some n → n ≤ 255)
    (t : Int × Int × Int) (arr : T × T × T) (slice : List T) (c : Color) :
    (Color.try_from_tuple t = .ok c →
      c.red ≤ 255 ∧ c.green ≤ 255 ∧ c.blue ≤ 255) ∧
    (Color.try_from_array tf arr = .ok c →
      c.red ≤ 255 ∧ c.green ≤ 255 ∧ c.blue ≤ 255) ∧
    (Color.try_from_slice tf slice = .ok c →
      c.red ≤ 255 ∧ c.green ≤ 255 ∧ c.blue ≤ 255) := by
  obtain ⟨r, g, b⟩ := t
  obtain ⟨x, y, z⟩ := arr
  refine ⟨?_, ?_, ?_⟩
  · cases hr : u8_try_from r <;> cases hg : u8_try_from g <;>
      cases hb : u8_try_from b <;>
      simp [Color.try_from_tuple, hr, hg, hb]
    rintro rfl
    exact ⟨u8_try_from_le hr, u8_try_from_le hg, u8_try_from_le hb⟩
  · cases hx : tf x <;> cases hy : tf y <;> cases hz : tf z <;>
      simp [Color.try_from_array, hx, hy, hz]
    rintro rfl
    exact ⟨htf _ _ hx, htf _ _ hy, htf _ _ hz⟩
  · by_cases hlen : slice.length = 3
    · obtain ⟨x1, x2, x3, rfl⟩ := List.length_eq_three.mp hlen
      cases h1 : tf x1 <;> cases h2 : tf x2 <;> cases h3 : tf x3 <;>
        simp [Color.try_from_slice, h1, h2, h3]
      rintro rfl
      exact ⟨htf _ _ h1, htf _ _ h2, htf _ _ h3⟩
    · simp [Color.try_from_slice, hlen]

/-- Witness for C7: `u8_try_from` only produces values `≤ 255`, and the three
conversions at the in-range input `(183, 65, 14)` / `[183, 65, 14]` with the
result `Color ⟨183, 65, 14⟩` have fields within bounds. -/
theorem ok_color_in_bounds_witness :
    (∀ t n, u8_try_from t = some n → n ≤ 255) ∧
    ((Color.try_from_tuple (183, 65, 14) = .ok ⟨183, 65, 14⟩ →
        (183 : Nat) ≤ 255 ∧ (65 : Nat) ≤ 255 ∧ (14 : Nat) ≤ 255) ∧
      (Color.try_from_array u8_try_from (183, 65, 14) = .ok ⟨183, 65, 14⟩ →
        (183 : Nat) ≤ 255 ∧ (65 : Nat) ≤ 255 ∧ (14 : Nat) ≤ 255) ∧
      (Color.try_from_slice u8_try_from [183, 65, 14] = .ok ⟨183, 65, 14⟩ →
        (183 : Nat) ≤ 255 ∧ (65 : Nat) ≤ 255 ∧ (14 : Nat) ≤ 255)) :=
  ⟨fun _ _ h => u8_try_from_le h,
   ok_color_in_bounds u8_try_from (fun _ _ h => u8_try_from_le h)
     (183, 65, 14) (183, 65, 14) [183, 65, 14] ⟨183, 65, 14⟩⟩

/-- Claim C8: constructing a `Color` from the logical values `(183, 65, 14)`
through each of the three entry points succeeds, and the three resulting
records are structurally equal (all equal to `⟨183, 65, 14⟩`). -/
theorem entry_points_agree :
    Color.try_from_tuple (183, 65, 14) = .ok ⟨183, 65, 14⟩ ∧
    Color.try_from_array u8_try_from (183, 65, 14) = .ok ⟨183, 65, 14⟩ ∧
    Color.try_from_slice u8_try_from [183, 65, 14] = .ok ⟨183, 65, 14⟩ := by
  decide

/-- Claim C9: `average` is the left-fold sum of the elements divided (IEEE
division) by the length cast to `f64`; in particular on
`[3.5, 0.3, 13.0, 11.7]` it compares IEEE-equal to the literal `7.125`. -/
theorem average_spec :
    (∀ values : List F64, average values =
      f64Div (values.foldl f64Add F64.zero) (f64FromNat values.length)) ∧
    f64Beq (average [f64OfDec 35 1, f64OfDec 3 1, f64OfDec 130 1, f64OfDec 117 1])
      (f64OfDec 7125 3) = true :=
  ⟨fun _ => rfl, by decide⟩

/-- Claim C10: `average` of the empty view signals no error: it divides the
sum `0.0` by the length `0` cast to `f64` and returns NaN (`0.0 / 0.0`). -/
theorem average_empty_nan :
    average [] = f64Div F64.zero (f64FromNat 0) ∧ average [] = F64.nan :=
  ⟨rfl, by decide⟩

/-- Witness for C6: concrete out-of-range inputs whose error is not `BadLen`. -/
theorem tuple_and_array_never_bad_len_witness :
    Color.try_from_tuple (-1, 255, 255) ≠ .error .BadLen ∧
    Color.try_from_array u8_try_from (256, 0, 0) ≠ .error .BadLen :=
  tuple_and_array_never_bad_len u8_try_from (-1, 255, 255) (256, 0, 0)
